import Mathlib

/-!
Verification of the word4you Raycast extension (TypeScript sources under
`src/word4you-extension-raycast/src`, plus the revision of `config.ts`
kept as `src/unnamed/part_010`).

Strings are modelled as `List Char` (`Str`).  JavaScript string methods
used by the sources (`trim`, `split`, `toLowerCase`, regular-expression
matching) are embedded as executable Lean functions whose behaviour is
documented next to each definition.
-/

/-- JavaScript strings, modelled as lists of Unicode code points. -/
abbrev Str := List Char

/-- The characters removed by JavaScript `String.prototype.trim`:
ECMAScript WhiteSpace (TAB, VT, FF, SP, NBSP, ZWNBSP and the Unicode
space separators) together with the line terminators LF, CR, LS, PS. -/
def isJsWs (c : Char) : Bool :=
  c = ' ' || c = '\t' || c = '\n' || c = '\r' ||
  c.toNat = 0x0b || c.toNat = 0x0c || c.toNat = 0xa0 || c.toNat = 0xfeff ||
  c.toNat = 0x1680 || (0x2000 ≤ c.toNat && c.toNat ≤ 0x200a) ||
  c.toNat = 0x2028 || c.toNat = 0x2029 || c.toNat = 0x202f ||
  c.toNat = 0x205f || c.toNat = 0x3000

/-- JavaScript `s.trim()`: strip `isJsWs` characters from both ends. -/
def jsTrim (s : Str) : Str :=
  ((s.dropWhile isJsWs).reverse.dropWhile isJsWs).reverse

/-- JavaScript `s.split("\n")`: the accumulator holds the current piece
reversed; a trailing separator yields a final empty piece, and the empty
string yields `[[]]`, as in JavaScript. -/
def splitLinesAux : Str → Str → List Str
  | [], acc => [acc.reverse]
  | c :: rest, acc =>
    if c = '\n' then acc.reverse :: splitLinesAux rest []
    else splitLinesAux rest (c :: acc)

def splitLines (s : Str) : List Str := splitLinesAux s []

/-- `output.split("\n").map(l => l.trim()).filter(l => l)` from
`parseRawWordExplanation` (wordService.ts): JavaScript string truthiness
keeps exactly the non-empty lines. -/
def processedLines (output : Str) : List Str :=
  ((splitLines output).map jsTrim).filter (fun l => !l.isEmpty)

/-- In the regular expressions of wordService.ts, `.` matches every
character except the ECMAScript line terminators. -/
def dotChar (c : Char) : Bool :=
  !(c = '\n' || c = '\r' || c.toNat = 0x2028 || c.toNat = 0x2029)

/-- First two characters of the line are `c₁`, `c₂` (an anchored
two-character literal at the start of a regular expression, or
`String.prototype.startsWith` with a two-character argument). -/
def fstTwo (c₁ c₂ : Char) : Str → Bool
  | a :: b :: _ => a = c₁ && b = c₂
  | _ => false

/-- `rest` consists of `.`-matchable characters followed by the final
two characters `c₁`, `c₂` — the `.*xy$` part of an anchored regex. -/
def midEndsWith (c₁ c₂ : Char) : Str → Bool
  | [a, b] => a = c₁ && b = c₂
  | a :: rest => dotChar a && midEndsWith c₁ c₂ rest
  | [] => false

/-- `rest` consists of `.`-matchable characters followed by the final
character `c` — the `.*x$` part of an anchored regex. -/
def midEndsWith1 (c : Char) : Str → Bool
  | [a] => a = c
  | a :: rest => dotChar a && midEndsWith1 c rest
  | [] => false

/-- `line.match(/^\*\/.*\/\*$/)`: pronunciation marker. -/
def isPronLine (l : Str) : Bool :=
  fstTwo '*' '/' l && midEndsWith '/' '*' (l.drop 2)

/-- `line.startsWith("> ")`: definition marker. -/
def isDefLine (l : Str) : Bool := fstTwo '>' ' ' l

/-- `line.match(/^\*\*.*\*\*$/)`: Chinese-translation marker. -/
def isChineseLine (l : Str) : Bool :=
  fstTwo '*' '*' l && midEndsWith '*' '*' (l.drop 2)

/-- `line.startsWith("- ")`: example marker. -/
def isDashLine (l : Str) : Bool := fstTwo '-' ' ' l

/-- First character of the line is `*` (the `^\*` anchor). -/
def fstStar : Str → Bool
  | a :: _ => a = '*'
  | [] => false

/-- `line.match(/^\*.*\*$/)`: tip marker (checked in the source together
with the negated pronunciation pattern). -/
def isTipLine (l : Str) : Bool :=
  fstStar l && midEndsWith1 '*' (l.drop 1)

/-- Remove a matched two-character head and two-character tail, as the
pair of anchored `replace` calls does on a line that matched. -/
def stripTwoTwo (l : Str) : Str :=
  ((l.drop 2).reverse.drop 2).reverse

/-- Remove a matched one-character head and one-character tail. -/
def stripOneOne (l : Str) : Str :=
  ((l.drop 1).reverse.drop 1).reverse

/-- `/[一-龥]/.test(text)` from wordService.ts. -/
def containsCJK (s : Str) : Bool :=
  s.any (fun c => 0x4e00 ≤ c.toNat && c.toNat ≤ 0x9fa5)

/-- The six mutable locals of `parseRawWordExplanation`. -/
structure ParseState where
  pronunciation : Str
  definition : Str
  chinese : Str
  example_en : Str
  example_zh : Str
  tip : Str
deriving DecidableEq, Repr

def initParseState : ParseState :=
  { pronunciation := [], definition := [], chinese := []
  , example_en := [], example_zh := [], tip := [] }

/-- One iteration of the `for` loop of `parseRawWordExplanation`
(wordService.ts lines 27-59), with the same if/else-if chain.  The JS
truthiness tests `!example_en` / `!example_zh` are emptiness tests. -/
def parseStep (st : ParseState) (line : Str) : ParseState :=
  if isPronLine line then { st with pronunciation := stripTwoTwo line }
  else if isDefLine line then { st with definition := line.drop 2 }
  else if isChineseLine line then { st with chinese := stripTwoTwo line }
  else if isDashLine line then
    let exampleText := line.drop 2
    if !containsCJK exampleText && st.example_en = [] then
      { st with example_en := exampleText }
    else if containsCJK exampleText && st.example_zh = [] then
      { st with example_zh := exampleText }
    else st
  else if isTipLine line && !isPronLine line then
    { st with tip := stripOneOne line }
  else st

def parseFields (output : Str) : ParseState :=
  (processedLines output).foldl parseStep initParseState

/-- The record returned by `parseRawWordExplanation` (and, with a
timestamp added, by `parseSavedWords`); mirrors the `WordExplanation`
interface of types.ts. -/
structure WordExplanation where
  word : Str
  pronunciation : Str
  definition : Str
  chinese : Str
  example_en : Str
  example_zh : Str
  tip : Str
  raw_output : Str
deriving DecidableEq, Repr

/-- `parseRawWordExplanation(output, word)` from wordService.ts lines
13-75.  The function body cannot raise, so the `catch` branch returning
`null` is unreachable and the result is always `some`; the
`pronunciation || ""` fallbacks are identities on strings. -/
def parseRawWordExplanation (output word : Str) : Option WordExplanation :=
  let st := parseFields output
  some
    { word := word
    , pronunciation := st.pronunciation
    , definition := st.definition
    , chinese := st.chinese
    , example_en := st.example_en
    , example_zh := st.example_zh
    , tip := st.tip
    , raw_output := output }

/-- C1: round-trip stability of the raw-block parser.  The parse result
keeps the input verbatim in `raw_output`, so re-parsing `raw_output`
with the same word reproduces every structured field. -/
theorem parseRaw_roundtrip (s w : Str) :
    ∃ p q, parseRawWordExplanation s w = some p ∧ p.raw_output = s ∧
      parseRawWordExplanation p.raw_output w = some q ∧
      q.pronunciation = p.pronunciation ∧ q.definition = p.definition ∧
      q.chinese = p.chinese ∧ q.example_en = p.example_en ∧
      q.example_zh = p.example_zh ∧ q.tip = p.tip := by
  refine ⟨_, _, rfl, rfl, rfl, rfl, rfl, rfl, rfl, rfl, rfl⟩

def beautifulBlock : Str :=
  ("## beautiful\n*/ˈbjuːtɪfl/*\n> Pleasing the senses or mind aesthetically.\n**美丽**\n- She has a beautiful smile.\n- 她有一个美丽的笑容。\n*The word \"beautiful\" is often used to describe visually appealing things.*").data

set_option maxRecDepth 40000 in
/-- C2: on the literal `beautiful` block, the parser yields exactly the
expected pronunciation, definition, Chinese translation, English and
Chinese examples, tip, and word. -/
theorem parseRaw_beautiful_block :
    parseRawWordExplanation beautifulBlock ("beautiful").data = some
      { word := ("beautiful").data
      , pronunciation := ("ˈbjuːtɪfl").data
      , definition := ("Pleasing the senses or mind aesthetically.").data
      , chinese := ("美丽").data
      , example_en := ("She has a beautiful smile.").data
      , example_zh := ("她有一个美丽的笑容。").data
      , tip := ("The word \"beautiful\" is often used to describe visually appealing things.").data
      , raw_output := beautifulBlock } := by
  decide

/-- `content.split(/(?=^## )/m)` from `parseSavedWords`: cut before
every `## ` that sits at the start of a line.  Following the ECMAScript
`split` algorithm, a zero-width separator match at the start of the
current piece is skipped, so no empty piece is produced (in particular
not at position 0) and `""` splits to `[""]`.  The accumulator holds the
current piece reversed; the `Bool` records whether the scan is at a
line start (position 0, or just after a `"\n"`). -/
def splitSectionsAux : Str → Str → Bool → List Str
  | [], acc, _ => [acc.reverse]
  | '#' :: '#' :: ' ' :: rest, acc, lineStart =>
    if lineStart && !acc.isEmpty then
      acc.reverse :: splitSectionsAux rest [' ', '#', '#'] false
    else
      splitSectionsAux rest (' ' :: '#' :: '#' :: acc) false
  | c :: rest, acc, _ => splitSectionsAux rest (c :: acc) (c = '\n')

def splitSections (content : Str) : List Str :=
  splitSectionsAux content [] true

/-- `wordLine.match(/^## (.+)$/)`: a heading line is `## ` followed by a
non-empty run of `.`-matchable characters; yields the capture group. -/
def headingMatch (l : Str) : Option Str :=
  match l with
  | '#' :: '#' :: ' ' :: rest =>
    if !rest.isEmpty && rest.all dotChar then some rest else none
  | _ => none

/-- `lines[1].match(/^Timestamp: (.+)$/)` from `parseSavedWords`:
yields the capture group after the literal `Timestamp: `. -/
def timestampMatch (l : Str) : Option Str :=
  match l with
  | 'T' :: 'i' :: 'm' :: 'e' :: 's' :: 't' :: 'a' :: 'm' :: 'p' :: ':' :: ' ' :: rest =>
    if !rest.isEmpty && rest.all dotChar then some rest else none
  | _ => none

/-- `SavedWord` from types.ts: a `WordExplanation` plus the timestamp
string extracted from its notebook section. -/
structure SavedWord extends WordExplanation where
  timestamp : Str
deriving DecidableEq, Repr

/-- `lines.slice(1).join("\n")`. -/
def joinLines : List Str → Str
  | [] => []
  | [l] => l
  | l :: ls => l ++ '\n' :: joinLines ls

/-- The timestamp assigned to a section by `parseSavedWords`: the
capture of `/^Timestamp: (.+)$/` on the second line when that line
exists and matches (an absent or non-matching `lines[1]` is falsy in
the source and leaves the timestamp `""`). -/
def sectionTimestamp (sec : Str) : Str :=
  match (splitLines sec).drop 1 with
  | l2 :: _ => (timestampMatch l2).getD []
  | [] => []

/-- The body of the `for (const section of sections)` loop of
`parseSavedWords` (wordService.ts lines 326-353): `continue` on
whitespace-only sections and on sections whose first line is not a
`## ` heading; otherwise parse the remaining lines with
`parseRawWordExplanation` and attach the timestamp. -/
def sectionEntry (sec : Str) : Option SavedWord :=
  if jsTrim sec = [] then none
  else
    let lines := splitLines sec
    match headingMatch (lines.headD []) with
    | none => none
    | some rawWord =>
      let word := jsTrim rawWord
      let wordContent := joinLines (lines.drop 1)
      match parseRawWordExplanation wordContent word with
      | none => none
      | some p => some { toWordExplanation := p, timestamp := sectionTimestamp sec }

/-- `parseSavedWords(vocabularyPath)` from wordService.ts lines
314-360.  The filesystem is modelled as a partial map from paths to
file contents; `fs.existsSync` failing yields `[]`, mirroring the early
return. -/
def parseSavedWords (fs : Str → Option Str) (vocabularyPath : Str) : List SavedWord :=
  match fs vocabularyPath with
  | none => []
  | some content => (splitSections content).filterMap sectionEntry

/-- C5: a missing notebook file is tolerated: `parseSavedWords` returns
the empty list when the vocabulary path does not exist. -/
theorem parseSavedWords_missing_file (fs : Str → Option Str) (path : Str)
    (h : fs path = none) : parseSavedWords fs path = [] := by
  unfold parseSavedWords
  rw [h]

/-- Witness for C5 at a concrete filesystem with no files. -/
theorem parseSavedWords_missing_file_witness :
    parseSavedWords (fun _ => none) ("/home/u/word4you/vocabulary_notebook.md").data = [] :=
  parseSavedWords_missing_file (fun _ => none) _ rfl

/-- A `sectionEntry` result always carries the timestamp computed by
`sectionTimestamp`, i.e. from the `Timestamp: ` second line. -/
theorem sectionEntry_timestamp (sec : Str) (e : SavedWord)
    (h : sectionEntry sec = some e) : e.timestamp = sectionTimestamp sec := by
  unfold sectionEntry at h
  split at h
  · simp at h
  · simp only [] at h
    split at h
    · simp at h
    · split at h
      · simp at h
      · injection h with h2
        subst h2
        rfl

/-- A notebook whose single section carries its timestamp only in an
HTML comment `<!-- timestamp=123 -->`. -/
def c3CommentContent : Str := ("## hi\n<!-- timestamp=123 -->\n> greeting").data

def c3Fs : Str → Option Str := fun _ => some c3CommentContent

set_option maxRecDepth 40000 in
/-- C3 counterexample: on a section containing the embedded HTML
comment `<!-- timestamp=123 -->`, `parseSavedWords` returns a single
entry whose timestamp is the empty string, not `123`. -/
theorem parseSavedWords_html_comment_not_used :
    (parseSavedWords c3Fs ("notebook.md").data).map SavedWord.timestamp = [([] : Str)] ∧
    (([] : Str) ≠ ("123").data) := by
  decide

/-- C3 (amended): every entry returned by `parseSavedWords` takes its
timestamp from its section via the `/^Timestamp: (.+)$/` match on the
second line (`sectionTimestamp`); embedded HTML comments never supply
it. -/
theorem parseSavedWords_timestamp_source (fs : Str → Option Str) (path : Str)
    (e : SavedWord) (he : e ∈ parseSavedWords fs path) :
    ∃ content, fs path = some content ∧
      ∃ sec ∈ splitSections content,
        sectionEntry sec = some e ∧ e.timestamp = sectionTimestamp sec := by
  unfold parseSavedWords at he
  cases h : fs path with
  | none => rw [h] at he; cases he
  | some content =>
    rw [h] at he
    obtain ⟨sec, hmem, hsec⟩ := List.mem_filterMap.mp he
    exact ⟨content, rfl, sec, hmem, hsec, sectionEntry_timestamp sec e hsec⟩

def c3TsContent : Str := ("## hey\nTimestamp: 20240101\n> hi").data

def c3TsFs : Str → Option Str := fun _ => some c3TsContent

/-- The entry parsed from `c3TsContent`. -/
def c3TsEntry : SavedWord :=
  { word := ("hey").data, pronunciation := [], definition := ("hi").data
  , chinese := [], example_en := [], example_zh := [], tip := []
  , raw_output := ("Timestamp: 20240101\n> hi").data
  , timestamp := ("20240101").data }

set_option maxRecDepth 40000 in
/-- Witness for the amended C3 at a concrete notebook. -/
theorem parseSavedWords_timestamp_source_witness :
    ∃ content, c3TsFs ("notebook.md").data = some content ∧
      ∃ sec ∈ splitSections content,
        sectionEntry sec = some c3TsEntry ∧
        c3TsEntry.timestamp = sectionTimestamp sec :=
  parseSavedWords_timestamp_source c3TsFs ("notebook.md").data c3TsEntry (by decide)


/-- `Char.toLower` models `String.prototype.toLowerCase` for the ASCII
range used by the sources; the full Unicode case mapping is not needed
by any statement below, which holds for an arbitrary lowercasing. -/
def jsToLower (s : Str) : Str := s.map Char.toLower

/-- `Map.prototype.get` on a string-keyed map, modelled as an
association list with unique keys (first match wins). -/
def mapGet (m : List (Str × SavedWord)) (k : Str) : Option SavedWord :=
  match m with
  | [] => none
  | (k', v) :: rest => if k' = k then some v else mapGet rest k

/-- `Map.prototype.set`: overwrite an existing key in place, otherwise
append in insertion order. -/
def mapSet (m : List (Str × SavedWord)) (k : Str) (v : SavedWord) :
    List (Str × SavedWord) :=
  match m with
  | [] => [(k, v)]
  | (k', v') :: rest =>
    if k' = k then (k, v) :: rest else (k', v') :: mapSet rest k v

/-- The map built by `loadSavedWords` (useWords.ts lines 79-82):
`words.forEach((word) => wordsMap.set(word.word.toLowerCase(), word))`. -/
def savedWordsMapOf (words : List SavedWord) : List (Str × SavedWord) :=
  words.foldl (fun m w => mapSet m (jsToLower w.word) w) []

/-- The externally observable effect of one `handleSearch` call:
whether `getWordExplanation` (the AI query) was invoked, and with which
argument. -/
structure SearchEffect where
  calledAI : Bool
  queryArg : Option Str
deriving DecidableEq, Repr

/-- `handleSearch(searchTerm)` from useWords.ts lines 95-144, projected
onto its AI-invocation effect: return early when the trimmed term is
empty (JS falsiness) or when `savedWordsMap.get(searchTerm.toLowerCase())`
hits; otherwise call `getWordExplanation(searchTerm.trim())`. -/
def handleSearch (savedWordsMap : List (Str × SavedWord)) (searchTerm : Str) :
    SearchEffect :=
  if jsTrim searchTerm = [] then { calledAI := false, queryArg := none }
  else
    match mapGet savedWordsMap (jsToLower searchTerm) with
    | some _ => { calledAI := false, queryArg := none }
    | none => { calledAI := true, queryArg := some (jsTrim searchTerm) }

/-- A saved entry for the word `hello`. -/
def helloEntry : SavedWord :=
  { word := ("hello").data, pronunciation := [], definition := ("greeting").data
  , chinese := [], example_en := [], example_zh := [], tip := []
  , raw_output := ("> greeting").data, timestamp := [] }

set_option maxRecDepth 40000 in
/-- C4 counterexample: for the search term `" hello"` (leading space),
whose lowercased trimmed form `hello` is a key of the loaded map, the
code still invokes the AI query, because the map lookup uses the
lowercased but untrimmed term. -/
theorem handleSearch_trimmed_key_still_queries :
    (mapGet (savedWordsMapOf [helloEntry])
       (jsToLower (jsTrim (" hello").data))).isSome = true ∧
    (handleSearch (savedWordsMapOf [helloEntry]) (" hello").data).calledAI = true := by
  decide

/-- C4 (amended): whenever the lowercased (untrimmed) search term is a
key of the loaded saved-words map, `handleSearch` returns without
invoking the AI query function. -/
theorem handleSearch_saved_short_circuit (savedWordsMap : List (Str × SavedWord))
    (searchTerm : Str) (w : SavedWord)
    (h : mapGet savedWordsMap (jsToLower searchTerm) = some w) :
    (handleSearch savedWordsMap searchTerm).calledAI = false := by
  unfold handleSearch
  split
  · rfl
  · rw [h]

/-- Witness for the amended C4: searching `HELLO` against a map holding
the saved word `hello` performs no AI call. -/
theorem handleSearch_saved_short_circuit_witness :
    (handleSearch (savedWordsMapOf [helloEntry]) ("HELLO").data).calledAI = false :=
  handleSearch_saved_short_circuit (savedWordsMapOf [helloEntry]) ("HELLO").data
    helloEntry (by decide)

/-- A result of `getDownloadUrl` (config.ts). -/
structure DownloadInfo where
  url : Str
  assetName : Str
  expectedHash : Str
deriving DecidableEq, Repr

def CLI_CONFIG_version : Str := ("v1.0.0").data

def CLI_CONFIG_baseUrl : Str :=
  ("https://github.com/gnehz972/word4you/releases/download").data

/-- The keys of `CLI_CONFIG.assets`; in the source this is the
TypeScript type `keyof typeof CLI_CONFIG.assets`, so lookups are total
over exactly these four keys. -/
inductive PlatformKey
  | darwinArm64
  | darwinX64
  | linuxX64
  | linuxArm64
deriving DecidableEq, Repr

/-- `CLI_CONFIG.assets` from the revision of config.ts kept as
src/unnamed/part_010 (the revision that includes the linux-arm64
asset). -/
def CLI_CONFIG_assets : PlatformKey → Str
  | .darwinArm64 => ("word4you-aarch64-apple-darwin").data
  | .darwinX64 => ("word4you-x86_64-apple-darwin").data
  | .linuxX64 => ("word4you-x86_64-unknown-linux-gnu").data
  | .linuxArm64 => ("word4you-aarch64-unknown-linux-gnu").data

/-- `CLI_CONFIG.hashes` from the same revision; the source object has
exactly these four keys and is only ever indexed with one of them, so
the last branch stands for the `word4you-aarch64-unknown-linux-gnu`
key. -/
def CLI_CONFIG_hashes (assetName : Str) : Str :=
  if assetName = ("word4you-aarch64-apple-darwin").data then
    ("5716162d81f3fce0c3f5a392cd902bfc6d44baa6c678432f9b1f2295ac97d0bf").data
  else if assetName = ("word4you-x86_64-apple-darwin").data then
    ("10eea5a1dd84516eb71a930f12193ebe4ef3de16ca9281b9d8d20cfa870f7bb1").data
  else if assetName = ("word4you-x86_64-unknown-linux-gnu").data then
    ("cd5b7232226e64889d7b428c5e45db46d9efe0f4ce9feeb07809a7de52de74e8").data
  else
    ("2e42a55c773cb6c14f0a6f6f01c5d536957a481d46f85c4e2b838e4a7c73bc2e").data

/-- `getDownloadUrl()` from config.ts (revision src/unnamed/part_010,
lines 44-73), with `os.platform()` and `os.arch()` passed explicitly.
The thrown `Error` messages are abbreviated to fixed strings. -/
def getDownloadUrl (platform arch : Str) : Except Str DownloadInfo :=
  if platform ≠ ("darwin").data ∧ platform ≠ ("linux").data then
    .error ("Unsupported platform").data
  else
    let keyResult : Except Str PlatformKey :=
      if platform = ("darwin").data then
        .ok (if arch = ("arm64").data then .darwinArm64 else .darwinX64)
      else
        if arch = ("x64").data then .ok .linuxX64
        else if arch = ("arm64").data then .ok .linuxArm64
        else .error ("Unsupported architecture").data
    match keyResult with
    | .error e => .error e
    | .ok platformKey =>
      let assetName := CLI_CONFIG_assets platformKey
      .ok { url := CLI_CONFIG_baseUrl ++ '/' :: CLI_CONFIG_version ++ '/' :: assetName
          , assetName := assetName
          , expectedHash := CLI_CONFIG_hashes assetName }

def darwinArm64Info : DownloadInfo :=
  { url := ("https://github.com/gnehz972/word4you/releases/download/v1.0.0/word4you-aarch64-apple-darwin").data
  , assetName := ("word4you-aarch64-apple-darwin").data
  , expectedHash := ("5716162d81f3fce0c3f5a392cd902bfc6d44baa6c678432f9b1f2295ac97d0bf").data }

def darwinX64Info : DownloadInfo :=
  { url := ("https://github.com/gnehz972/word4you/releases/download/v1.0.0/word4you-x86_64-apple-darwin").data
  , assetName := ("word4you-x86_64-apple-darwin").data
  , expectedHash := ("10eea5a1dd84516eb71a930f12193ebe4ef3de16ca9281b9d8d20cfa870f7bb1").data }

def linuxX64Info : DownloadInfo :=
  { url := ("https://github.com/gnehz972/word4you/releases/download/v1.0.0/word4you-x86_64-unknown-linux-gnu").data
  , assetName := ("word4you-x86_64-unknown-linux-gnu").data
  , expectedHash := ("cd5b7232226e64889d7b428c5e45db46d9efe0f4ce9feeb07809a7de52de74e8").data }

def linuxArm64Info : DownloadInfo :=
  { url := ("https://github.com/gnehz972/word4you/releases/download/v1.0.0/word4you-aarch64-unknown-linux-gnu").data
  , assetName := ("word4you-aarch64-unknown-linux-gnu").data
  , expectedHash := ("2e42a55c773cb6c14f0a6f6f01c5d536957a481d46f85c4e2b838e4a7c73bc2e").data }

set_option maxRecDepth 40000 in
/-- C7 counterexample: on macOS with the architecture `ia32` — not one
of the four supported pairs — `getDownloadUrl` succeeds with the x64
asset instead of throwing. -/
theorem getDownloadUrl_darwin_fallback :
    getDownloadUrl ("darwin").data ("ia32").data = .ok darwinX64Info ∧
    ("ia32").data ≠ ("x64").data ∧ ("ia32").data ≠ ("arm64").data := by
  refine ⟨rfl, by decide, by decide⟩

set_option maxRecDepth 40000 in
/-- C7 (amended): `getDownloadUrl` succeeds on the four supported pairs
— in particular linux/arm64 yields `word4you-aarch64-unknown-linux-gnu`
with its pinned hash — and throws for non-darwin/linux platforms and
for Linux with any other architecture; but on darwin every architecture
other than arm64 falls back to the x64 asset instead of throwing. -/
theorem getDownloadUrl_mapping :
    getDownloadUrl ("darwin").data ("arm64").data = .ok darwinArm64Info ∧
    getDownloadUrl ("darwin").data ("x64").data = .ok darwinX64Info ∧
    getDownloadUrl ("linux").data ("x64").data = .ok linuxX64Info ∧
    getDownloadUrl ("linux").data ("arm64").data = .ok linuxArm64Info ∧
    (∀ p a : Str, p ≠ ("darwin").data → p ≠ ("linux").data →
      getDownloadUrl p a = .error ("Unsupported platform").data) ∧
    (∀ a : Str, a ≠ ("x64").data → a ≠ ("arm64").data →
      getDownloadUrl ("linux").data a = .error ("Unsupported architecture").data) ∧
    (∀ a : Str, a ≠ ("arm64").data →
      getDownloadUrl ("darwin").data a = .ok darwinX64Info) := by
  refine ⟨rfl, rfl, rfl, rfl, ?_, ?_, ?_⟩
  · intro p a h1 h2
    unfold getDownloadUrl
    rw [if_pos ⟨h1, h2⟩]
  · intro a h1 h2
    unfold getDownloadUrl
    rw [if_neg (by decide :
      ¬(("linux").data ≠ ("darwin").data ∧ ("linux").data ≠ ("linux").data))]
    simp only [if_neg (by decide : ¬("linux").data = ("darwin").data),
      if_neg h1, if_neg h2]
  · intro a h
    unfold getDownloadUrl
    rw [if_neg (by decide :
      ¬(("darwin").data ≠ ("darwin").data ∧ ("darwin").data ≠ ("linux").data))]
    simp only [if_pos (by decide : ("darwin").data = ("darwin").data), if_neg h]
    rfl

set_option maxRecDepth 40000 in
/-- Witness for the amended C7: a non-darwin/linux platform and an
unsupported Linux architecture both fail, and darwin/ia32 succeeds with
the x64 asset. -/
theorem getDownloadUrl_mapping_witness :
    getDownloadUrl ("win32").data ("x64").data = .error ("Unsupported platform").data ∧
    getDownloadUrl ("linux").data ("ia32").data = .error ("Unsupported architecture").data ∧
    getDownloadUrl ("darwin").data ("ppc64").data = .ok darwinX64Info :=
  ⟨getDownloadUrl_mapping.2.2.2.2.1 ("win32").data ("x64").data (by decide) (by decide),
   getDownloadUrl_mapping.2.2.2.2.2.1 ("ia32").data (by decide) (by decide),
   getDownloadUrl_mapping.2.2.2.2.2.2 ("ppc64").data (by decide)⟩

/-- `path.join(a, b)` on already-normalized segments: concatenation
with a single separator (the sources only join plain segments, so no
normalization is needed). -/
def pathJoin (a b : Str) : Str := a ++ '/' :: b

/-- The `Preferences` interface of config.ts. -/
structure Preferences where
  geminiApiKey : Str
  geminiModelName : Str
  vocabularyBaseDir : Str
  gitEnabled : Bool
  gitRemoteUrl : Str
deriving DecidableEq, Repr

/-- The ambient host state read by config.ts: the Raycast preference
values, `os.homedir()` and `process.env`. -/
structure RaycastEnv where
  preferences : Preferences
  homedir : Str
  processEnv : List (Str × Str)
deriving DecidableEq, Repr

/-- First-match lookup in `process.env`. -/
def lookupEnv : List (Str × Str) → Str → Option Str
  | [], _ => none
  | (k, v) :: rest, key => if k = key then some v else lookupEnv rest key

/-- JavaScript `a || b` on strings: the left operand unless it is empty
(falsy). -/
def jsOrDefault (v dflt : Str) : Str := if v = [] then dflt else v

/-- `getVocabularyPath()` from config.ts lines 70-73:
`path.join(os.homedir(), "word4you", "vocabulary_notebook.md")`.  The
function reads only the home directory; no preference value enters. -/
def getVocabularyPath (env : RaycastEnv) : Str :=
  pathJoin (pathJoin env.homedir ("word4you").data) ("vocabulary_notebook.md").data

/-- `createEnvironmentFromPreferences()` from config.ts lines 93-105,
as the key-to-value map `{...process.env, WORD4YOU_*: ...}`: the five
explicit keys override `process.env`, every other key falls through. -/
def createEnvironmentFromPreferences (env : RaycastEnv) (key : Str) : Option Str :=
  if key = ("WORD4YOU_GEMINI_API_KEY").data then
    some (jsOrDefault env.preferences.geminiApiKey [])
  else if key = ("WORD4YOU_GEMINI_MODEL_NAME").data then
    some (jsOrDefault env.preferences.geminiModelName ("gemini-2.0-flash-001").data)
  else if key = ("WORD4YOU_VOCABULARY_BASE_DIR").data then
    some (jsOrDefault env.preferences.vocabularyBaseDir ("~").data)
  else if key = ("WORD4YOU_GIT_ENABLED").data then
    some (if env.preferences.gitEnabled then ("true").data else ("false").data)
  else if key = ("WORD4YOU_GIT_REMOTE_URL").data then
    some (jsOrDefault env.preferences.gitRemoteUrl [])
  else lookupEnv env.processEnv key

/-- `loadSavedWords` (useWords.ts lines 73-93), projected onto the data
it reads: it lists the notebook at `getVocabularyPath()`. -/
def loadSavedWords (env : RaycastEnv) (fs : Str → Option Str) : List SavedWord :=
  parseSavedWords fs (getVocabularyPath env)

/-- C10: the saved-word listing always reads the fixed path
`{home}/word4you/vocabulary_notebook.md` — `getVocabularyPath` ignores
every preference, including `vocabularyBaseDir` — while that same
preference is forwarded to the CLI subprocess as
`WORD4YOU_VOCABULARY_BASE_DIR` (default `~`), so a non-default base
directory makes the listing and the CLI target different files. -/
theorem vocabularyPath_fixed_vs_cli_env (env env2 : RaycastEnv) (fs : Str → Option Str) :
    (env.homedir = env2.homedir → getVocabularyPath env = getVocabularyPath env2) ∧
    getVocabularyPath env = env.homedir ++ ("/word4you/vocabulary_notebook.md").data ∧
    loadSavedWords env fs =
      parseSavedWords fs (env.homedir ++ ("/word4you/vocabulary_notebook.md").data) ∧
    createEnvironmentFromPreferences env ("WORD4YOU_VOCABULARY_BASE_DIR").data =
      some (if env.preferences.vocabularyBaseDir = [] then ("~").data
            else env.preferences.vocabularyBaseDir) := by
  have hpath : getVocabularyPath env =
      env.homedir ++ ("/word4you/vocabulary_notebook.md").data := by
    show (env.homedir ++ '/' :: ("word4you").data) ++ '/' :: ("vocabulary_notebook.md").data =
      env.homedir ++ ("/word4you/vocabulary_notebook.md").data
    rw [List.append_assoc]
    congr 1
  refine ⟨?_, hpath, ?_, ?_⟩
  · intro h
    unfold getVocabularyPath pathJoin
    rw [h]
  · show parseSavedWords fs (getVocabularyPath env) = _
    rw [hpath]
  · show (if ("WORD4YOU_VOCABULARY_BASE_DIR").data = ("WORD4YOU_GEMINI_API_KEY").data
        then _ else _) = _
    rw [if_neg (by decide), if_neg (by decide), if_pos rfl]
    rfl

/-- A host environment whose `vocabularyBaseDir` preference is
`/custom`. -/
def envCustomBase : RaycastEnv :=
  { preferences :=
      { geminiApiKey := [], geminiModelName := []
      , vocabularyBaseDir := ("/custom").data
      , gitEnabled := false, gitRemoteUrl := [] }
  , homedir := ("/home/u").data
  , processEnv := [] }

/-- The same host environment with default (empty) preferences. -/
def envDefaultBase : RaycastEnv :=
  { preferences :=
      { geminiApiKey := [], geminiModelName := []
      , vocabularyBaseDir := []
      , gitEnabled := false, gitRemoteUrl := [] }
  , homedir := ("/home/u").data
  , processEnv := [] }

set_option maxRecDepth 40000 in
/-- Witness for C10: with a custom base directory the listing path is
unchanged, while the forwarded CLI environment value differs. -/
theorem vocabularyPath_fixed_vs_cli_env_witness :
    getVocabularyPath envCustomBase = getVocabularyPath envDefaultBase ∧
    createEnvironmentFromPreferences envCustomBase
      ("WORD4YOU_VOCABULARY_BASE_DIR").data = some (("/custom").data) ∧
    createEnvironmentFromPreferences envDefaultBase
      ("WORD4YOU_VOCABULARY_BASE_DIR").data = some (("~").data) :=
  ⟨(vocabularyPath_fixed_vs_cli_env envCustomBase envDefaultBase (fun _ => none)).1 rfl,
   ((vocabularyPath_fixed_vs_cli_env envCustomBase envDefaultBase (fun _ => none)).2.2.2).trans
     (by decide),
   ((vocabularyPath_fixed_vs_cli_env envDefaultBase envCustomBase (fun _ => none)).2.2.2).trans
     (by decide)⟩

/-- `getCliFilepath()` from config.ts lines 36-39:
`path.join(environment.supportPath, "cli", "word4you")`. -/
def getCliFilepath (supportPath : Str) : Str :=
  pathJoin (pathJoin supportPath ("cli").data) ("word4you").data

/-- The filesystem state touched by `ensureCLI` (cliManager.ts):
the content installed at the support-directory CLI path, if any, and
whether the temporary download directory `.tmp` exists. -/
structure CliFS where
  cliFile : Option Str
  tempDirExists : Bool
deriving DecidableEq, Repr

/-- `ensureCLI()` from cliManager.ts lines 53-100.  `downloadFile` and
`verifyFileHash` live in utils/downloadUtils.ts, which is not under
src/; modelled from the spec: downloading fetches the release asset
(following redirects) into the temporary directory and may fail, here
the parameter `download`; `verifyFileHash` computes the SHA-256 digest
of the downloaded file, here the abstract digest function `hashOf`.
The `finally` block removes the temporary directory if it exists, on
the success, hash-mismatch and download-failure paths alike; the `catch`
re-throws with a `Could not download` prefix; the hash-mismatch message
is the thrown `Hash verification failed` error. -/
def ensureCLI (supportPath platform arch : Str) (download : Str → Except Str Str)
    (hashOf : Str → Str) (fs : CliFS) : Except Str Str × CliFS :=
  let cli := getCliFilepath supportPath
  match fs.cliFile with
  | some _ => (.ok cli, fs)
  | none =>
    match getDownloadUrl platform arch with
    | .error e => (.error e, fs)
    | .ok info =>
      match download info.url with
      | .error e =>
        (.error (("Could not download Word4You CLI: ").data ++ e),
         { fs with tempDirExists := false })
      | .ok content =>
        if hashOf content = info.expectedHash then
          (.ok cli, { cliFile := some content, tempDirExists := false })
        else
          (.error ("Could not download Word4You CLI: Error: Hash verification failed: file hash does not match expected hash").data,
           { cliFile := fs.cliFile, tempDirExists := false })

/-- C6: when the digest of the downloaded asset differs from the pinned
expected digest, `ensureCLI` raises an integrity error, installs
nothing at the CLI path, and removes the temporary directory — which is
also removed on the matching-digest path; an already-installed CLI is
returned untouched without downloading at all. -/
theorem ensureCLI_hash_guard (sp platform arch : Str)
    (download : Str → Except Str Str) (hashOf : Str → Str) (fs : CliFS)
    (info : DownloadInfo) (content : Str) :
    (∀ c, fs.cliFile = some c →
      ensureCLI sp platform arch download hashOf fs = (.ok (getCliFilepath sp), fs)) ∧
    (fs.cliFile = none → getDownloadUrl platform arch = .ok info →
     download info.url = .ok content →
      (hashOf content ≠ info.expectedHash →
        (∃ e, (ensureCLI sp platform arch download hashOf fs).1 = .error e) ∧
        (ensureCLI sp platform arch download hashOf fs).2.cliFile = none ∧
        (ensureCLI sp platform arch download hashOf fs).2.tempDirExists = false) ∧
      (hashOf content = info.expectedHash →
        (ensureCLI sp platform arch download hashOf fs).2.tempDirExists = false)) := by
  constructor
  · intro c h
    unfold ensureCLI
    rw [h]
  · intro h1 h2 h3
    unfold ensureCLI
    simp only [h1, h2, h3]
    constructor
    · intro hne
      rw [if_neg hne]
      exact ⟨⟨_, rfl⟩, rfl, rfl⟩
    · intro he
      rw [if_pos he]

/-- A download that always yields the bytes `binary`. -/
def demoDownload : Str → Except Str Str := fun _ => .ok ("binary").data

/-- A digest function that never matches the pinned hashes. -/
def demoBadHash : Str → Str := fun _ => ("badhash").data

def demoCliFS : CliFS := { cliFile := none, tempDirExists := false }

set_option maxRecDepth 40000 in
/-- Witness for C6: a concrete mismatching download on linux/x64 errors
out, installs nothing and leaves no temporary directory. -/
theorem ensureCLI_hash_guard_witness :
    (∃ e, (ensureCLI ("/sup").data ("linux").data ("x64").data demoDownload
      demoBadHash demoCliFS).1 = .error e) ∧
    (ensureCLI ("/sup").data ("linux").data ("x64").data demoDownload
      demoBadHash demoCliFS).2.cliFile = none ∧
    (ensureCLI ("/sup").data ("linux").data ("x64").data demoDownload
      demoBadHash demoCliFS).2.tempDirExists = false :=
  ((ensureCLI_hash_guard ("/sup").data ("linux").data ("x64").data demoDownload
      demoBadHash demoCliFS linuxX64Info ("binary").data).2
    rfl rfl rfl).1 (by decide)

/-- A line whose marker does not fire leaves the corresponding field of
the parse state unchanged: no other branch of the if/else-if chain of
`parseStep` writes that field. -/
theorem parseStep_unchanged (st : ParseState) (l : Str) :
    (isPronLine l = false → (parseStep st l).pronunciation = st.pronunciation) ∧
    (isDefLine l = false → (parseStep st l).definition = st.definition) ∧
    (isChineseLine l = false → (parseStep st l).chinese = st.chinese) ∧
    (isDashLine l = false →
      (parseStep st l).example_en = st.example_en ∧
      (parseStep st l).example_zh = st.example_zh) ∧
    (isTipLine l = false → (parseStep st l).tip = st.tip) := by
  refine ⟨?_, ?_, ?_, ?_, ?_⟩ <;> intro h <;>
    (unfold parseStep; simp only []; split_ifs <;> simp_all)

theorem foldl_pron_unchanged (ls : List Str) (st : ParseState)
    (h : ∀ l ∈ ls, isPronLine l = false) :
    (ls.foldl parseStep st).pronunciation = st.pronunciation := by
  induction ls generalizing st with
  | nil => rfl
  | cons l ls ih =>
    rw [List.foldl_cons, ih _ (fun x hx => h x (List.mem_cons_of_mem _ hx))]
    exact (parseStep_unchanged st l).1 (h l (List.mem_cons_self _ _))

theorem foldl_def_unchanged (ls : List Str) (st : ParseState)
    (h : ∀ l ∈ ls, isDefLine l = false) :
    (ls.foldl parseStep st).definition = st.definition := by
  induction ls generalizing st with
  | nil => rfl
  | cons l ls ih =>
    rw [List.foldl_cons, ih _ (fun x hx => h x (List.mem_cons_of_mem _ hx))]
    exact (parseStep_unchanged st l).2.1 (h l (List.mem_cons_self _ _))

theorem foldl_chinese_unchanged (ls : List Str) (st : ParseState)
    (h : ∀ l ∈ ls, isChineseLine l = false) :
    (ls.foldl parseStep st).chinese = st.chinese := by
  induction ls generalizing st with
  | nil => rfl
  | cons l ls ih =>
    rw [List.foldl_cons, ih _ (fun x hx => h x (List.mem_cons_of_mem _ hx))]
    exact (parseStep_unchanged st l).2.2.1 (h l (List.mem_cons_self _ _))

theorem foldl_examples_unchanged (ls : List Str) (st : ParseState)
    (h : ∀ l ∈ ls, isDashLine l = false) :
    (ls.foldl parseStep st).example_en = st.example_en ∧
    (ls.foldl parseStep st).example_zh = st.example_zh := by
  induction ls generalizing st with
  | nil => exact ⟨rfl, rfl⟩
  | cons l ls ih =>
    have hstep := (parseStep_unchanged st l).2.2.2.1 (h l (List.mem_cons_self _ _))
    have ihl := ih (parseStep st l) (fun x hx => h x (List.mem_cons_of_mem _ hx))
    rw [List.foldl_cons]
    exact ⟨ihl.1.trans hstep.1, ihl.2.trans hstep.2⟩

theorem foldl_tip_unchanged (ls : List Str) (st : ParseState)
    (h : ∀ l ∈ ls, isTipLine l = false) :
    (ls.foldl parseStep st).tip = st.tip := by
  induction ls generalizing st with
  | nil => rfl
  | cons l ls ih =>
    rw [List.foldl_cons, ih _ (fun x hx => h x (List.mem_cons_of_mem _ hx))]
    exact (parseStep_unchanged st l).2.2.2.2 (h l (List.mem_cons_self _ _))

/-- C8: best-effort parsing.  `parseRawWordExplanation` succeeds on
every input; a field whose marker occurs on no processed line is the
empty string, so a block with no recognizable marker at all yields a
result with every structured field empty. -/
theorem parseRaw_best_effort (output word : Str) :
    (parseRawWordExplanation output word).isSome = true ∧
    ∀ p, parseRawWordExplanation output word = some p →
      ((∀ l ∈ processedLines output, isPronLine l = false) → p.pronunciation = []) ∧
      ((∀ l ∈ processedLines output, isDefLine l = false) → p.definition = []) ∧
      ((∀ l ∈ processedLines output, isChineseLine l = false) → p.chinese = []) ∧
      ((∀ l ∈ processedLines output, isDashLine l = false) →
        p.example_en = [] ∧ p.example_zh = []) ∧
      ((∀ l ∈ processedLines output, isTipLine l = false) → p.tip = []) := by
  refine ⟨rfl, ?_⟩
  intro p hp
  injection hp with hp
  subst hp
  exact ⟨fun h => foldl_pron_unchanged _ _ h,
         fun h => foldl_def_unchanged _ _ h,
         fun h => foldl_chinese_unchanged _ _ h,
         fun h => foldl_examples_unchanged _ _ h,
         fun h => foldl_tip_unchanged _ _ h⟩

def c8Output : Str := ("word4you is a CLI tool\nplain text with no markers").data

set_option maxRecDepth 40000 in
/-- Witness for C8: a block with no recognizable marker parses
successfully with every structured field empty. -/
theorem parseRaw_best_effort_witness :
    (parseRawWordExplanation c8Output ("x").data).isSome = true ∧
    ∀ p, parseRawWordExplanation c8Output ("x").data = some p →
      p.pronunciation = [] ∧ p.definition = [] ∧ p.chinese = [] ∧
      p.example_en = [] ∧ p.example_zh = [] ∧ p.tip = [] := by
  have h := parseRaw_best_effort c8Output ("x").data
  refine ⟨h.1, fun p hp => ?_⟩
  obtain ⟨h1, h2, h3, h4, h5⟩ := h.2 p hp
  exact ⟨h1 (by decide), h2 (by decide), h3 (by decide),
         (h4 (by decide)).1, (h4 (by decide)).2, h5 (by decide)⟩

/-- A line matching `startsWith("- ")` decomposes as `"- " + text`. -/
theorem isDashLine_shape (l : Str) (h : isDashLine l = true) :
    ∃ t, l = '-' :: ' ' :: t := by
  cases l with
  | nil => simp [isDashLine, fstTwo] at h
  | cons a l' =>
    cases l' with
    | nil => simp [isDashLine, fstTwo] at h
    | cons b t =>
      simp only [isDashLine, fstTwo, Bool.and_eq_true, decide_eq_true_eq] at h
      exact ⟨t, by rw [h.1, h.2]⟩

/-- On a `- `-prefixed line, `parseStep` runs exactly the example
branch: none of the earlier markers can match a line starting with
`-`. -/
theorem parseStep_dash (st : ParseState) (t : Str) :
    parseStep st ('-' :: ' ' :: t) =
      if !containsCJK t && st.example_en = [] then { st with example_en := t }
      else if containsCJK t && st.example_zh = [] then { st with example_zh := t }
      else st := by
  have hp : isPronLine ('-' :: ' ' :: t) = false := rfl
  have hd : isDefLine ('-' :: ' ' :: t) = false := rfl
  have hc : isChineseLine ('-' :: ' ' :: t) = false := rfl
  have hda : isDashLine ('-' :: ' ' :: t) = true := rfl
  unfold parseStep
  rw [if_neg (by simp [hp]), if_neg (by simp [hd]), if_neg (by simp [hc]),
    if_pos (by simp [hda])]
  rfl

/-- The English-example capture of a line: the text of a `- `-prefixed
line without CJK characters. -/
def dashEnExtract (l : Str) : Option Str :=
  if isDashLine l then
    (if containsCJK (l.drop 2) then none else some (l.drop 2))
  else none

/-- The Chinese-example capture of a line: the text of a `- `-prefixed
line containing a CJK character. -/
def dashZhExtract (l : Str) : Option Str :=
  if isDashLine l then
    (if containsCJK (l.drop 2) then some (l.drop 2) else none)
  else none

/-- First-match characterization of `example_en` over the parse fold:
when the field starts empty it receives the capture of the first
English-example line, and once non-empty it never changes.  The
hypothesis (satisfied by all trimmed lines) rules out a `- `-prefixed
line with empty text, which a later line could overwrite. -/
theorem foldl_en (ls : List Str) (st : ParseState)
    (hnz : ∀ l ∈ ls, isDashLine l = true → l.drop 2 ≠ []) :
    (ls.foldl parseStep st).example_en =
      if st.example_en = [] then ((ls.findSome? dashEnExtract).getD [])
      else st.example_en := by
  induction ls generalizing st with
  | nil =>
    rw [List.foldl_nil, List.findSome?_nil]
    split
    · next h => simpa using h
    · rfl
  | cons l ls ih =>
    have htail : ∀ x ∈ ls, isDashLine x = true → x.drop 2 ≠ [] :=
      fun x hx => hnz x (List.mem_cons_of_mem _ hx)
    rw [List.foldl_cons]
    by_cases hdl : isDashLine l = true
    · obtain ⟨t, rfl⟩ := isDashLine_shape l hdl
      have hne : t ≠ [] := by simpa using hnz _ (List.mem_cons_self _ _) hdl
      by_cases hcjk : containsCJK t = true
      · have hstep : (parseStep st ('-' :: ' ' :: t)).example_en = st.example_en := by
          rw [parseStep_dash, hcjk]
          simp only [Bool.not_true, Bool.false_and, Bool.false_eq_true, if_false]
          split <;> rfl
        have hext : dashEnExtract ('-' :: ' ' :: t) = none := by
          simp [dashEnExtract, hcjk, hdl]
        rw [ih _ htail, hstep, List.findSome?_cons, hext]
      · have hcjk' : containsCJK t = false := by simpa using hcjk
        have hstep : parseStep st ('-' :: ' ' :: t) =
            if st.example_en = [] then { st with example_en := t } else st := by
          rw [parseStep_dash, hcjk']
          simp
        have hext : dashEnExtract ('-' :: ' ' :: t) = some t := by
          simp [dashEnExtract, hcjk', hdl]
        by_cases hen : st.example_en = []
        · rw [ih _ htail, hstep, if_pos hen, List.findSome?_cons, hext]
          dsimp only
          rw [if_neg hne, if_pos hen]
          rfl
        · rw [ih _ htail, hstep, if_neg hen, List.findSome?_cons, hext]
          rw [if_neg hen, if_neg hen]
    · have hdl' : isDashLine l = false := by simpa using hdl
      have hstep := ((parseStep_unchanged st l).2.2.2.1 hdl').1
      have hext : dashEnExtract l = none := by simp [dashEnExtract, hdl']
      rw [ih _ htail, hstep, List.findSome?_cons, hext]

/-- First-match characterization of `example_zh`, mirror of
`foldl_en`. -/
theorem foldl_zh (ls : List Str) (st : ParseState)
    (hnz : ∀ l ∈ ls, isDashLine l = true → l.drop 2 ≠ []) :
    (ls.foldl parseStep st).example_zh =
      if st.example_zh = [] then ((ls.findSome? dashZhExtract).getD [])
      else st.example_zh := by
  induction ls generalizing st with
  | nil =>
    rw [List.foldl_nil, List.findSome?_nil]
    split
    · next h => simpa using h
    · rfl
  | cons l ls ih =>
    have htail : ∀ x ∈ ls, isDashLine x = true → x.drop 2 ≠ [] :=
      fun x hx => hnz x (List.mem_cons_of_mem _ hx)
    rw [List.foldl_cons]
    by_cases hdl : isDashLine l = true
    · obtain ⟨t, rfl⟩ := isDashLine_shape l hdl
      have hne : t ≠ [] := by simpa using hnz _ (List.mem_cons_self _ _) hdl
      by_cases hcjk : containsCJK t = true
      · have hstep : parseStep st ('-' :: ' ' :: t) =
            if st.example_zh = [] then { st with example_zh := t } else st := by
          rw [parseStep_dash, hcjk]
          simp
        have hext : dashZhExtract ('-' :: ' ' :: t) = some t := by
          simp [dashZhExtract, hcjk, hdl]
        by_cases hzh : st.example_zh = []
        · rw [ih _ htail, hstep, if_pos hzh, List.findSome?_cons, hext]
          dsimp only
          rw [if_neg hne, if_pos hzh]
          rfl
        · rw [ih _ htail, hstep, if_neg hzh, List.findSome?_cons, hext]
          rw [if_neg hzh, if_neg hzh]
      · have hcjk' : containsCJK t = false := by simpa using hcjk
        have hstep : (parseStep st ('-' :: ' ' :: t)).example_zh = st.example_zh := by
          rw [parseStep_dash, hcjk']
          simp only [Bool.not_false, Bool.true_and, Bool.false_and, Bool.false_eq_true,
            if_false]
          split <;> rfl
        have hext : dashZhExtract ('-' :: ' ' :: t) = none := by
          simp [dashZhExtract, hcjk', hdl]
        rw [ih _ htail, hstep, List.findSome?_cons, hext]
    · have hdl' : isDashLine l = false := by simpa using hdl
      have hstep := ((parseStep_unchanged st l).2.2.2.1 hdl').2
      have hext : dashZhExtract l = none := by simp [dashZhExtract, hdl']
      rw [ih _ htail, hstep, List.findSome?_cons, hext]

theorem head_dropWhile_false (p : Char → Bool) :
    ∀ (l : List Char) (c : Char), ((l.dropWhile p).head? = some c) → p c = false := by
  intro l
  induction l with
  | nil => intro c h; simp [List.dropWhile] at h
  | cons a l ih =>
    intro c h
    by_cases hp : p a
    · rw [List.dropWhile_cons_of_pos hp] at h
      exact ih c h
    · rw [List.dropWhile_cons_of_neg hp] at h
      simp at h
      rw [← h]
      exact Bool.eq_false_iff.mpr hp

/-- The last character of a non-empty trimmed string is not
whitespace. -/
theorem jsTrim_last_not_ws (s : Str) (c : Char)
    (h : (jsTrim s).getLast? = some c) : isJsWs c = false := by
  unfold jsTrim at h
  rw [List.getLast?_reverse] at h
  exact head_dropWhile_false isJsWs _ c h

/-- Every processed line is trimmed, so a `- `-prefixed processed line
has non-empty text (the line `"- "` alone would have trimmed to
`"-"`). -/
theorem processedLines_dash_tail (output : Str) :
    ∀ l ∈ processedLines output, isDashLine l = true → l.drop 2 ≠ [] := by
  intro l hl hdl
  obtain ⟨t, rfl⟩ := isDashLine_shape l hdl
  intro ht
  have ht' : t = [] := by simpa using ht
  subst ht'
  unfold processedLines at hl
  rw [List.mem_filter] at hl
  rw [List.mem_map] at hl
  obtain ⟨⟨l₀, _, heq⟩, _⟩ := hl
  have hlast : (jsTrim l₀).getLast? = some ' ' := by rw [heq]; decide
  have hws := jsTrim_last_not_ws l₀ ' ' hlast
  exact absurd hws (by decide)

/-- C9: first-match example extraction.  `example_en` is the text of
the first `- `-prefixed processed line without CJK characters (empty if
none), `example_zh` the text of the first with a CJK character; later
`- `-prefixed lines of either kind leave the assigned fields
unchanged, as the characterization depends only on the first match. -/
theorem parseRaw_first_example (output word : Str) :
    ∃ p, parseRawWordExplanation output word = some p ∧
      p.example_en = ((processedLines output).findSome? dashEnExtract).getD [] ∧
      p.example_zh = ((processedLines output).findSome? dashZhExtract).getD [] := by
  refine ⟨_, rfl, ?_, ?_⟩
  · have h := foldl_en (processedLines output) initParseState (processedLines_dash_tail output)
    rw [if_pos (show initParseState.example_en = [] from rfl)] at h
    exact h
  · have h := foldl_zh (processedLines output) initParseState (processedLines_dash_tail output)
    rw [if_pos (show initParseState.example_zh = [] from rfl)] at h
    exact h
